import Mathlib

/-- A JavaScript value as this layer sees it: the JSON values a response body can
parse to, plus `undefined` for the value of an absent property and for explicit
`undefined` in constructed objects. Numbers are modelled as integers because the
code under study only ever tests `typeof x === "number"` and truthiness of a
number, never its magnitude. -/
inductive JsVal where
  | undefined
  | null
  | bool (b : Bool)
  | num (n : Int)
  | str (s : String)
  | arr (xs : List JsVal)
  | obj (fields : List (String × JsVal))

/-- `true` for JS `null` and `undefined`, the two values on which property
access throws a TypeError. -/
def JsVal.isNullish : JsVal → Bool
  | .null => true
  | .undefined => true
  | _ => false

/-- JS property read `v.f`. `none` models the TypeError thrown when the
receiver is nullish; on any other non-object receiver the result is
`undefined`, and on an object it is the bound value or `undefined`.
(Object keys are assumed unique, as produced by `JSON.parse`.) -/
def jsGet (v : JsVal) (f : String) : Option JsVal :=
  match v with
  | .null => none
  | .undefined => none
  | .obj fields =>
    match fields.lookup f with
    | some x => some x
    | none => some .undefined
  | _ => some .undefined

/-- Total property read for a receiver already known to be non-nullish. -/
def hGet (v : JsVal) (f : String) : JsVal :=
  (jsGet v f).getD .undefined

/-- JS truthiness of a value (`NaN` is out of the integer model). -/
def jsTruthy : JsVal → Bool
  | .undefined => false
  | .null => false
  | .bool b => b
  | .num n => n != 0
  | .str s => s != ""
  | .arr _ => true
  | .obj _ => true

/-- JS `typeof`. Arrays and `null` answer `"object"`. -/
def jsTypeof : JsVal → String
  | .undefined => "undefined"
  | .null => "object"
  | .bool _ => "boolean"
  | .num _ => "number"
  | .str _ => "string"
  | .arr _ => "object"
  | .obj _ => "object"

/-- JS strict equality `v === s` against a string literal: true exactly for the
equal string value. -/
def jsStrictEqStr (v : JsVal) (s : String) : Bool :=
  match v with
  | .str t => t == s
  | _ => false

/-- JS nullish coalescing `a ?? b`. -/
def nullishElse (a b : JsVal) : JsVal :=
  if a.isNullish then b else a

/-- JS `String.prototype.toUpperCase` on the strings this layer compares
(ASCII verdict words): upper-case every character. -/
def jsToUpper (s : String) : String :=
  String.mk (s.data.map Char.toUpper)

/-- A JS whitespace character as `String.prototype.trim` strips it (the ASCII
ones; the code only trims backend-supplied names and label text). -/
def isWsChar (c : Char) : Bool :=
  c == ' ' || c == '\t' || c == '\n' || c == '\r' || c == '\x0b' || c == '\x0c'

/-- Drop leading whitespace characters. -/
def dropLeadWs : List Char → List Char
  | [] => []
  | c :: t => if isWsChar c then dropLeadWs t else c :: t

/-- JS `String.prototype.trim`: strip leading and trailing whitespace. -/
def jsTrim (s : String) : String :=
  String.mk (List.reverse (dropLeadWs (List.reverse (dropLeadWs s.data))))

mutual
/-- JS `String(v)` as applied by `new Error(v)` to a non-string argument:
arrays join their parts with commas, objects print as `[object Object]`. -/
def jsToString : JsVal → String
  | .undefined => "undefined"
  | .null => "null"
  | .bool b => cond b "true" "false"
  | .num n => toString n
  | .str s => s
  | .arr xs => String.intercalate "," (jsArrParts xs)
  | .obj _ => "[object Object]"

/-- Parts of a JS array-to-string conversion: nullish entries become empty. -/
def jsArrParts : List JsVal → List String
  | [] => []
  | v :: t => (if v.isNullish then "" else jsToString v) :: jsArrParts t
end

/-! ## Error taxonomy and transport model (`src/api.ts`)

Every failure the layer surfaces is a thrown `Error` with a message; the
constructors below tag each distinct throw site of `api.ts` with the spec's
error kind, carrying the message the code builds there. `typeErrorCrash` and
`parseFailure` model, respectively, a JS TypeError from a property access on a
nullish value and a rejected `res.json()`, both of which reach the generic
`catch` clause and are re-thrown with their own engine-supplied message. -/

inductive Failure where
  | timeout (msg : String)
  | netFailure (msg : String)
  | serverError (msg : String)
  | parseFailure
  | typeErrorCrash
  | notFound (msg : String)
  | incompleteData (msg : String)
  | shapeMismatch (msg : String)
deriving DecidableEq

/-- The message the `catch` clauses substitute for an AbortError. -/
def timedOutMsg : String := "Request timed out - please try again"

/-- `DEFAULT_TIMEOUT_MS` from `api.ts`: deadline for text, barcode and token
lookups (applied as the omitted-argument default of `withAbortController`). -/
def DEFAULT_TIMEOUT_MS : Nat := 60000

/-- `CV_TIMEOUT_MS` from `api.ts`: the longer deadline for image uploads. -/
def CV_TIMEOUT_MS : Nat := 120000

/-- An HTTP response as the entry operations consume it: `ok`/`status` from
the fetch response, `bodyText` the result of `res.text()` on the error path
(already defaulted to `""` when reading the body fails), `statusText` the HTTP
reason phrase, and `json` the result of `res.json()` (`none` = parse failure). -/
structure HttpResp where
  ok : Bool
  status : Nat
  bodyText : String
  statusText : String
  json : Option JsVal

/-- Outcome of the underlying `fetch` once it settles on its own: either a
settled response or a transport-level rejection with a message. -/
inductive ReqOutcome where
  | completed (r : HttpResp)
  | netFail (msg : String)

/-- What `fn(controller.signal)` can reject with inside `withAbortController`:
the AbortError produced because the deadline timer called `controller.abort()`,
or an ordinary fetch failure. -/
inductive JsThrow where
  | abortError
  | fetchFail (msg : String)

/-- `withAbortController` from `api.ts`, with the timer race made explicit:
the request on its own would settle as `out` after `dur` milliseconds, and the
deadline timer fires at `ms` milliseconds. If the deadline elapses first
(`ms <= dur`) the controller aborts the in-flight request, which surfaces as an
AbortError; otherwise the request's own outcome is delivered. The timer is
cleared on every path (no residual state to model). -/
def withAbortController (dur : Nat) (out : ReqOutcome) (ms : Nat) :
    Except JsThrow HttpResp :=
  if dur < ms then
    match out with
    | .completed r => .ok r
    | .netFail m => .error (.fetchFail m)
  else .error .abortError

/-- The shared `catch (err)` clause of every entry operation: an AbortError is
replaced by the fixed timed-out message, any other transport rejection is
re-thrown with its own message. -/
def classifyCatch : JsThrow → Failure
  | .abortError => .timeout timedOutMsg
  | .fetchFail m => .netFailure m

/-! ## Image-result normalizer (`classifyImageAsync`, api.ts lines 63-80) -/

/-- The object literal at api.ts lines 70-77 for one non-nullish candidate
record (property order preserved; the `as Verdict` and `as number | undefined`
casts have no runtime effect). -/
def candidateItemV (c : JsVal) : JsVal :=
  .obj
    [ ("name", nullishElse (hGet c "name")
        (nullishElse (hGet c "canonical_name") (hGet c "label"))),
      ("label", nullishElse (hGet c "model_label")
        (nullishElse (hGet c "label") (hGet c "name"))),
      ("final_status", nullishElse (hGet c "status") (hGet c "default_status")),
      ("rationale", nullishElse (hGet c "rationale")
        (nullishElse (hGet c "reason") .undefined)),
      ("det_conf", nullishElse (hGet c "model_score") (hGet c "det_conf")),
      ("sources", nullishElse (hGet c "sources") (.arr [])) ]

/-- One candidate record of the `{candidates: [...]}` shape. A nullish
candidate makes the very first property access throw, which is what the
`Except` error models. -/
def candidateToItem (c : JsVal) : Except Failure JsVal :=
  if c.isNullish then .error .typeErrorCrash
  else .ok (candidateItemV c)

/-- JS `Array.prototype.map`: elements are processed in order and an exception
thrown by the callback aborts the whole call. -/
def mapExc (f : JsVal → Except Failure JsVal) :
    List JsVal → Except Failure (List JsVal)
  | [] => .ok []
  | x :: t =>
    match f x with
    | .error e => .error e
    | .ok y =>
      match mapExc f t with
      | .error e => .error e
      | .ok ys => .ok (y :: ys)

/-- The body of `classifyImageAsync` after `res.json().catch(() => null)`:
a bare array is returned as-is (the `as ClassifyItem[]` cast has no runtime
effect), an object with an array-valued `candidates` field is mapped item-wise,
and anything else yields the empty array. -/
def classifyNormalize (json : JsVal) : Except Failure (List JsVal) :=
  match json with
  | .arr xs => .ok xs
  | _ =>
    if jsTruthy json then
      match jsGet json "candidates" with
      | some (.arr cs) => mapExc candidateToItem cs
      | _ => .ok []
    else .ok []

/-- `classifyImageAsync` end to end: transport with the CV deadline, the
non-success-status throw (`Server responded ...`), the parse-failure-to-null
recovery, then the normalizer; AbortError becomes the timed-out message. -/
def classifyImageAsync (dur : Nat) (out : ReqOutcome) :
    Except Failure (List JsVal) :=
  match withAbortController dur out CV_TIMEOUT_MS with
  | .error e => .error (classifyCatch e)
  | .ok r =>
    if r.ok = false then
      .error (.serverError ("Server responded " ++ toString r.status ++ ": " ++
        (if r.bodyText = "" then r.statusText else r.bodyText)))
    else
      classifyNormalize (r.json.getD .null)

/-! ## Text-resolution flow (`resolveTextAsync`, api.ts lines 116-122, and the
item mapping of `runTextCheck` in the main screen component) -/

/-- The shape guard of `resolveTextAsync`:
`!json || typeof json !== "object" || !Array.isArray(json.hits)` throws the
shape-mismatch message, otherwise the payload is returned whole as the
`ResolveResponse`. The guards run before any property access, so no payload
can crash here. -/
def resolveTextNormalize (json : JsVal) : Except Failure JsVal :=
  if !jsTruthy json || jsTypeof json != "object" then
    .error (.shapeMismatch "Unexpected response shape from server")
  else
    match jsGet json "hits" with
    | some (.arr _) => .ok json
    | _ => .error (.shapeMismatch "Unexpected response shape from server")

/-- `resolveTextAsync` end to end with the default deadline; the error-path
message is `Resolve failed (status): ...`. -/
def resolveTextAsync (dur : Nat) (out : ReqOutcome) : Except Failure JsVal :=
  match withAbortController dur out DEFAULT_TIMEOUT_MS with
  | .error e => .error (classifyCatch e)
  | .ok r =>
    if r.ok = false then
      .error (.serverError ("Resolve failed (" ++ toString r.status ++ "): " ++
        (if r.bodyText = "" then r.statusText else r.bodyText)))
    else
      match r.json with
      | none => .error .parseFailure
      | some j => resolveTextNormalize j

/-- One hit record mapped to a `ClassifyItem` by `runTextCheck` in the main
screen (property order as in its object literal: label, name, final_status,
rationale, sources, det_conf). A nullish hit record crashes at the first
property access. -/
def textItemV (h : JsVal) : JsVal :=
  .obj
    [ ("label", hGet h "token"),
      ("name", hGet h "name"),
      ("final_status", hGet h "status"),
      ("rationale", nullishElse (hGet h "notes") .undefined),
      ("sources", nullishElse (hGet h "sources") (.arr [])),
      ("det_conf",
        if jsTypeof (hGet h "db_score") == "number" then hGet h "db_score"
        else .undefined) ]

/-- The same mapping with the crash on a nullish hit record made explicit. -/
def textHitToItem (h : JsVal) : Except Failure JsVal :=
  if h.isNullish then .error .typeErrorCrash
  else .ok (textItemV h)

/-- `out.hits.map(...)` from `runTextCheck`: the whole text flow after the
normalizer, producing the displayed items. -/
def runTextCheckItems (hits : List JsVal) : Except Failure (List JsVal) :=
  mapExc textHitToItem hits

/-! ## Token-resolution flow (`resolveTokensAsync`, api.ts lines 255-294) -/

/-- The shape guard of `resolveTokensAsync` on the parsed payload, returning
the raw `hits` array. -/
def resolveTokensNormalize (json : JsVal) : Except Failure (List JsVal) :=
  if !jsTruthy json || jsTypeof json != "object" then
    .error (.shapeMismatch "Unexpected response shape from /ingredients/resolve-tokens")
  else
    match jsGet json "hits" with
    | some (.arr hs) => .ok hs
    | _ => .error (.shapeMismatch "Unexpected response shape from /ingredients/resolve-tokens")

/-- `resolveTokensAsync` end to end. `tokens = none` models a `null`/`undefined`
argument (the `!tokens` guard). The boolean in the result records whether the
call reached `withAbortController`, i.e. whether a network operation was
started; the early return for an empty token list happens before the `try`
block and never touches the transport. -/
def resolveTokensAsync (tokens : Option (List String)) (dur : Nat)
    (out : ReqOutcome) : Bool × Except Failure (List JsVal) :=
  match tokens with
  | none => (false, .ok [])
  | some ts =>
    if ts.length == 0 then (false, .ok [])
    else
      (true,
        match withAbortController dur out DEFAULT_TIMEOUT_MS with
        | .error e => .error (classifyCatch e)
        | .ok r =>
          if r.ok = false then
            .error (.serverError ("Token resolve failed (" ++ toString r.status
              ++ "): " ++ (if r.bodyText = "" then r.statusText else r.bodyText)))
          else
            match r.json with
            | none => .error .parseFailure
            | some j => resolveTokensNormalize j)

/-! ## Barcode-resolution normalizer (`checkBarcodeAsync`, api.ts lines 159-242) -/

/-- `json.message || <default>` as used in the two domain-error throws:
the backend message when truthy (stringified as `new Error` would), else the
given default. Only reached when `json` is non-nullish. -/
def msgOrDefault (json : JsVal) (d : String) : String :=
  let m := hGet json "message"
  if jsTruthy m then jsToString m else d

/-- Default message of the `barcode_not_found` throw. -/
def notFoundDefault : String :=
  "We couldn’t find this barcode in our database yet. It may be a non-food item or a product we haven’t indexed."

/-- Default message of the `ingredients_missing` throw. -/
def ingredientsMissingDefault : String :=
  "We couldn’t find any ingredients for this product in our database."

/-- Message of the empty-hits throw. -/
def noMatchDefault : String :=
  "We couldn’t match any ingredients for this product. It might not be a food item or its ingredients aren’t in our database yet."

/-- Shape-mismatch message of the barcode flow. -/
def barcodeShapeMsg : String := "Unexpected response shape from /barcode/resolve"

/-- `hits.some((h) => h.status === s)` with JS short-circuiting: stops at the
first match, and throws if it reaches a nullish hit record first. -/
def someStatusIs : List JsVal → String → Except Failure Bool
  | [], _ => .ok false
  | h :: t, s =>
    if h.isNullish then .error .typeErrorCrash
    else if jsStrictEqStr (hGet h "status") s then .ok true
    else someStatusIs t s

/-- The `else` branch of the overall-status computation (api.ts lines 205-211):
derive the severity maximum from the hit statuses, starting from the `"SAFE"`
initializer. -/
def aggStatusOfHits (hits : List JsVal) : Except Failure String := do
  let anyU ← someStatusIs hits "UNSAFE"
  if anyU then pure "UNSAFE"
  else
    let anyC ← someStatusIs hits "CAUTION"
    pure (if anyC then "CAUTION" else "SAFE")

/-- The whole overall-status computation (api.ts lines 198-211): a string
`overall_status` is upper-cased and kept when it validates, otherwise the
`"SAFE"` initializer stands; only a non-string (or absent) `overall_status`
reaches the hit-derived aggregation. -/
def overallStatusOf (json : JsVal) (hits : List JsVal) : Except Failure String :=
  match hGet json "overall_status" with
  | .str s =>
    let u := jsToUpper s
    .ok (if u == "SAFE" || u == "CAUTION" || u == "UNSAFE" then u else "SAFE")
  | _ => aggStatusOfHits hits

/-- `display_name` handling (api.ts lines 188-191). -/
def displayNameOf (json : JsVal) : String :=
  match hGet json "display_name" with
  | .str s => if (jsTrim s).length != 0 then jsTrim s else "Scanned product"
  | _ => "Scanned product"

/-- `raw_ingredients` handling (api.ts lines 193-196). -/
def ingredientsTextOf (json : JsVal) : String :=
  match hGet json "raw_ingredients" with
  | .str s => jsTrim s
  | _ => ""

/-- The generated rationale of the overall product card (api.ts lines 214-220):
the ingredient-count sentence, then, when the label text is non-empty, the
`Label ingredients:` sentence, joined with a space. -/
def productRationale (json : JsVal) (n : Nat) : String :=
  let base := "Overall rating based on " ++ toString n ++ " ingredient" ++
    (if n == 1 then "" else "s") ++ " we recognized in this product."
  let t := ingredientsTextOf json
  if t = "" then base else base ++ " " ++ "Label ingredients: " ++ t

/-- The synthesized overall product card (api.ts lines 222-229), property
order as in the source object literal. -/
def overallItemJs (barcode name status rationale : String) : JsVal :=
  .obj
    [ ("label", .str barcode),
      ("name", .str name),
      ("final_status", .str status),
      ("rationale", .str rationale),
      ("sources", .arr []),
      ("isProduct", .bool true) ]

/-- One ingredient hit mapped to a card (api.ts lines 232-240), property order
as in the source object literal. A nullish hit crashes at the first access. -/
def hitItemV (h : JsVal) : JsVal :=
  .obj
    [ ("label", hGet h "token"),
      ("name", hGet h "name"),
      ("final_status", hGet h "status"),
      ("rationale", nullishElse (hGet h "notes") .undefined),
      ("sources", nullishElse (hGet h "sources") .undefined),
      ("det_conf",
        if jsTypeof (hGet h "db_score") == "number" then hGet h "db_score"
        else .undefined) ]

/-- The same mapping with the crash on a nullish hit record made explicit. -/
def hitToItem (h : JsVal) : Except Failure JsVal :=
  if h.isNullish then .error .typeErrorCrash
  else .ok (hitItemV h)

/-- The body of `checkBarcodeAsync` after `res.json()` (api.ts lines 161-242).
The `json.error` read comes first and throws on a nullish payload; then the
two domain-error signals, the shape guard, the empty-hits guard, the overall
status (computed before the per-hit map, as in the source), and finally the
aggregate card followed by the per-hit cards. -/
def checkBarcodeNormalize (barcode : String) (json : JsVal) :
    Except Failure (List JsVal) :=
  match jsGet json "error" with
  | none => .error .typeErrorCrash
  | some errv =>
    if jsStrictEqStr errv "barcode_not_found" then
      .error (.notFound (msgOrDefault json notFoundDefault))
    else if jsStrictEqStr errv "ingredients_missing" then
      .error (.incompleteData (msgOrDefault json ingredientsMissingDefault))
    else if !jsTruthy json || jsTypeof json != "object" then
      .error (.shapeMismatch barcodeShapeMsg)
    else
      match jsGet json "hits" with
      | some (.arr hits) =>
        if hits.length == 0 then
          .error (.incompleteData noMatchDefault)
        else
          match overallStatusOf json hits with
          | .error e => .error e
          | .ok overallStatus =>
            match mapExc hitToItem hits with
            | .error e => .error e
            | .ok items =>
              .ok (overallItemJs barcode (displayNameOf json) overallStatus
                (productRationale json hits.length) :: items)
      | _ => .error (.shapeMismatch barcodeShapeMsg)

/-- `checkBarcodeAsync` end to end with the default deadline; the error-path
message is `Barcode lookup failed (status): ...`. -/
def checkBarcodeAsync (barcode : String) (dur : Nat) (out : ReqOutcome) :
    Except Failure (List JsVal) :=
  match withAbortController dur out DEFAULT_TIMEOUT_MS with
  | .error e => .error (classifyCatch e)
  | .ok r =>
    if r.ok = false then
      .error (.serverError ("Barcode lookup failed (" ++ toString r.status ++
        "): " ++ (if r.bodyText = "" then r.statusText else r.bodyText)))
    else
      match r.json with
      | none => .error .parseFailure
      | some j => checkBarcodeNormalize barcode j

/-! ## The Verdict enumeration and the aggregator viewed over typed verdicts -/

/-- `Verdict` from `src/types.ts`. -/
inductive Verdict where
  | SAFE
  | CAUTION
  | UNSAFE
deriving DecidableEq

/-- The backend string for a verdict. -/
def Verdict.toStr : Verdict → String
  | .SAFE => "SAFE"
  | .CAUTION => "CAUTION"
  | .UNSAFE => "UNSAFE"

/-- Severity rank: `UNSAFE` > `CAUTION` > `SAFE`. -/
def sev : Verdict → Nat
  | .SAFE => 0
  | .CAUTION => 1
  | .UNSAFE => 2

/-- The barcode flow's verdict aggregation (api.ts lines 205-211) over typed
verdicts: any `UNSAFE` wins, else any `CAUTION`, else the `"SAFE"`
initializer. -/
def aggregateVerdicts (vs : List Verdict) : Verdict :=
  if vs.any (· == Verdict.UNSAFE) then .UNSAFE
  else if vs.any (· == Verdict.CAUTION) then .CAUTION
  else .SAFE

/-- A hit record carrying just a typed verdict status, for relating the typed
aggregator to the dynamic one the barcode flow runs. -/
def mkStatusHit (v : Verdict) : JsVal :=
  .obj [("status", .str v.toStr)]

/-! ## Total mirrors of the crash-guarded computations, and the data-model
invariant -/

/-- What `hits.some((h) => h.status === s)` evaluates to when no hit record is
nullish. -/
def someStatusV (hits : List JsVal) (s : String) : Bool :=
  hits.any fun h => jsStrictEqStr (hGet h "status") s

/-- What the hit-derived overall status evaluates to when no hit record is
nullish. -/
def aggStatusV (hits : List JsVal) : String :=
  if someStatusV hits "UNSAFE" then "UNSAFE"
  else if someStatusV hits "CAUTION" then "CAUTION"
  else "SAFE"

/-- What the whole overall-status computation evaluates to when no hit record
is nullish. -/
def overallStatusV (json : JsVal) (hits : List JsVal) : String :=
  match hGet json "overall_status" with
  | .str s =>
    let u := jsToUpper s
    if u == "SAFE" || u == "CAUTION" || u == "UNSAFE" then u else "SAFE"
  | _ => aggStatusV hits

/-- A non-empty string value. -/
def isNonemptyStr : JsVal → Bool
  | .str s => s != ""
  | _ => false

/-- A string value that is a member of the `Verdict` enumeration. -/
def isVerdictStr : JsVal → Bool
  | .str s => s == "SAFE" || s == "CAUTION" || s == "UNSAFE"
  | _ => false

/-- The spec's `SafetyItem` invariant read off an item object: at least one of
`label`/`name` is a non-empty string, and `final_status` is a member of the
verdict enumeration. -/
def satisfiesInvariant (item : JsVal) : Bool :=
  (isNonemptyStr (hGet item "label") || isNonemptyStr (hGet item "name")) &&
    isVerdictStr (hGet item "final_status")

/-- A backend hit record carrying everything the data-model invariant needs:
non-nullish, a valid status string, and a non-empty token or name. -/
def wellFormedHit (h : JsVal) : Bool :=
  !h.isNullish && isVerdictStr (hGet h "status") &&
    (isNonemptyStr (hGet h "token") || isNonemptyStr (hGet h "name"))

/-- A backend candidate record carrying everything the invariant needs after
the fallback chains of the image normalizer. -/
def wellFormedCandidate (c : JsVal) : Bool :=
  !c.isNullish &&
    isVerdictStr (nullishElse (hGet c "status") (hGet c "default_status")) &&
    (isNonemptyStr (nullishElse (hGet c "name")
        (nullishElse (hGet c "canonical_name") (hGet c "label"))) ||
      isNonemptyStr (nullishElse (hGet c "model_label")
        (nullishElse (hGet c "label") (hGet c "name"))))

/-- The verdict of the first returned item of a successful call (the aggregate
card in the barcode flow); `undefined` on failure or an empty result. -/
def firstVerdictOf (r : Except Failure (List JsVal)) : JsVal :=
  hGet ((r.toOption.getD []).headD .undefined) "final_status"

/-- The aggregate product card the barcode flow synthesizes for an object
payload with hit records `hs`, written with the total mirrors (valid whenever
no hit record is nullish). -/
def barcodeOverallCard (bc : String) (json : JsVal) (hs : List JsVal) : JsVal :=
  overallItemJs bc (displayNameOf json) (overallStatusV json hs)
    (productRationale json hs.length)

/-! ## Helper lemmas -/

lemma jsGet_eq_some : ∀ {v : JsVal}, v.isNullish = false → ∀ f : String,
    jsGet v f = some (hGet v f)
  | .bool _, _, _ => rfl
  | .num _, _, _ => rfl
  | .str _, _, _ => rfl
  | .arr _, _, _ => rfl
  | .obj fs, _, f => by
    simp only [hGet, jsGet]
    cases fs.lookup f <;> rfl

lemma mapExc_ok (f : JsVal → Except Failure JsVal) (g : JsVal → JsVal) :
    ∀ l : List JsVal, (∀ x ∈ l, f x = .ok (g x)) →
      mapExc f l = .ok (l.map g) := by
  intro l
  induction l with
  | nil => intro _; rfl
  | cons a t ih =>
    intro h
    rw [mapExc, h a (List.mem_cons_self a t),
      ih (fun x hx => h x (List.mem_cons_of_mem a hx))]
    rfl

lemma someStatusIs_eq (s : String) :
    ∀ hs : List JsVal, (∀ h ∈ hs, h.isNullish = false) →
      someStatusIs hs s = .ok (someStatusV hs s) := by
  intro hs
  induction hs with
  | nil => intro _; rfl
  | cons h t ih =>
    intro hn
    have h1 : h.isNullish = false := hn h (List.mem_cons_self h t)
    have ih2 := ih (fun x hx => hn x (List.mem_cons_of_mem h hx))
    cases hc : jsStrictEqStr (hGet h "status") s with
    | false =>
      simp [someStatusIs, someStatusV, h1, hc] at ih2 ⊢
      exact ih2
    | true => simp [someStatusIs, someStatusV, h1, hc]

lemma aggStatusOfHits_eq (hs : List JsVal)
    (hn : ∀ h ∈ hs, h.isNullish = false) :
    aggStatusOfHits hs = .ok (aggStatusV hs) := by
  cases hu : someStatusV hs "UNSAFE" <;> cases hc : someStatusV hs "CAUTION" <;>
    simp [aggStatusOfHits, aggStatusV, someStatusIs_eq _ hs hn, hu, hc,
      bind, Except.bind, pure, Except.pure]

lemma overallStatusOf_eq (json : JsVal) (hs : List JsVal)
    (hn : ∀ h ∈ hs, h.isNullish = false) :
    overallStatusOf json hs = .ok (overallStatusV json hs) := by
  unfold overallStatusOf overallStatusV
  cases hGet json "overall_status" <;> simp [aggStatusOfHits_eq hs hn]

/-- Success-path characterization of the barcode normalizer: on an object
payload that signals no domain error and carries a non-empty `hits` array of
non-nullish records, the result is the synthesized overall card followed by
the per-hit cards, in backend order. -/
lemma checkBarcode_success (bc : String) (fs : List (String × JsVal))
    (hs : List JsVal)
    (he1 : jsStrictEqStr (hGet (.obj fs) "error") "barcode_not_found" = false)
    (he2 : jsStrictEqStr (hGet (.obj fs) "error") "ingredients_missing" = false)
    (hh : jsGet (JsVal.obj fs) "hits" = some (.arr hs))
    (hne : hs ≠ [])
    (hn : ∀ h ∈ hs, h.isNullish = false) :
    checkBarcodeNormalize bc (.obj fs) =
      .ok (overallItemJs bc (displayNameOf (.obj fs))
        (overallStatusV (.obj fs) hs)
        (productRationale (.obj fs) hs.length) :: hs.map hitItemV) := by
  have hget : jsGet (JsVal.obj fs) "error" = some (hGet (.obj fs) "error") :=
    @jsGet_eq_some (.obj fs) rfl "error"
  have hlen : (hs.length == 0) = false := by
    cases hs with
    | nil => exact absurd rfl hne
    | cons a t => rfl
  have hmap : mapExc hitToItem hs = .ok (hs.map hitItemV) :=
    mapExc_ok _ _ hs (fun x hx => by simp [hitToItem, hn x hx])
  simp [checkBarcodeNormalize, hget, he1, he2, hh, hlen, hmap,
    overallStatusOf_eq (JsVal.obj fs) hs hn, jsTruthy, jsTypeof]

/-- Success-path characterization of the image normalizer's candidates shape:
an object payload carrying an array of non-nullish candidate records maps
item-wise. -/
lemma classifyNormalize_candidates_ok (fs : List (String × JsVal))
    (cs : List JsVal)
    (hc : jsGet (JsVal.obj fs) "candidates" = some (.arr cs))
    (hn : ∀ c ∈ cs, c.isNullish = false) :
    classifyNormalize (.obj fs) = .ok (cs.map candidateItemV) := by
  unfold classifyNormalize
  rw [hc]
  simp only [jsTruthy, if_true]
  exact mapExc_ok _ _ cs (fun c hcc => by simp [candidateToItem, hn c hcc])

/-- The per-verdict comparison underlying the dynamic `some` calls agrees with
typed equality. -/
lemma any_toStr_eq (vs : List Verdict) (w : Verdict) :
    (vs.any fun v => v.toStr == w.toStr) = (vs.any fun v => v == w) := by
  induction vs with
  | nil => rfl
  | cons a t ih =>
    have ha : (a.toStr == w.toStr) = (a == w) := by cases a <;> cases w <;> rfl
    simp [List.any_cons, ha, ih]

/-- The dynamic `hits.some((h) => h.status === s)` over hit records carrying
typed verdicts agrees with the typed `any`. -/
lemma someStatusV_map_mkStatusHit (vs : List Verdict) (w : Verdict) :
    someStatusV (vs.map mkStatusHit) w.toStr = (vs.any fun v => v == w) := by
  induction vs with
  | nil => rfl
  | cons a t ih =>
    have ha : jsStrictEqStr (hGet (mkStatusHit a) "status") w.toStr = (a == w) := by
      cases a <;> cases w <;> rfl
    simp only [someStatusV, List.map_cons, List.any_cons] at ih ⊢
    rw [ha, ih]

/-- The dynamic hit-derived overall status over typed verdict hits is the
string of the typed aggregation. -/
lemma aggStatusV_map_mkStatusHit (vs : List Verdict) :
    aggStatusV (vs.map mkStatusHit) = (aggregateVerdicts vs).toStr := by
  have hU := someStatusV_map_mkStatusHit vs Verdict.UNSAFE
  have hC := someStatusV_map_mkStatusHit vs Verdict.CAUTION
  unfold aggStatusV aggregateVerdicts
  cases hu : (vs.any fun v => v == Verdict.UNSAFE) <;>
    cases hc : (vs.any fun v => v == Verdict.CAUTION) <;>
      simp_all [Verdict.toStr]

/-- C1: for every non-empty collection of verdicts, the aggregation used by
the barcode flow returns the maximum under the severity order
UNSAFE > CAUTION > SAFE — the result is UNSAFE iff some input is UNSAFE,
CAUTION iff no input is UNSAFE and some is CAUTION, SAFE otherwise; the result
is an element of the collection dominating every element in severity; and on
hit records carrying exactly these verdicts the dynamic aggregation inside
`checkBarcodeAsync` computes the same value. -/
theorem C1_aggregator_severity_max (vs : List Verdict) (hne : vs ≠ []) :
    (aggregateVerdicts vs = .UNSAFE ↔ Verdict.UNSAFE ∈ vs) ∧
    (aggregateVerdicts vs = .CAUTION ↔
      (Verdict.UNSAFE ∉ vs ∧ Verdict.CAUTION ∈ vs)) ∧
    (aggregateVerdicts vs = .SAFE ↔
      (Verdict.UNSAFE ∉ vs ∧ Verdict.CAUTION ∉ vs)) ∧
    aggregateVerdicts vs ∈ vs ∧
    (∀ v ∈ vs, sev v ≤ sev (aggregateVerdicts vs)) ∧
    aggStatusOfHits (vs.map mkStatusHit) = .ok (aggregateVerdicts vs).toStr := by
  have memU : (vs.any fun v => v == Verdict.UNSAFE) = true ↔ Verdict.UNSAFE ∈ vs := by
    simp [List.any_eq_true]
  have memC : (vs.any fun v => v == Verdict.CAUTION) = true ↔ Verdict.CAUTION ∈ vs := by
    simp [List.any_eq_true]
  have hbridge : aggStatusOfHits (vs.map mkStatusHit) =
      .ok (aggregateVerdicts vs).toStr := by
    rw [aggStatusOfHits_eq _ (fun h hh => by
        obtain ⟨v, -, rfl⟩ := List.mem_map.mp hh
        rfl),
      aggStatusV_map_mkStatusHit]
  have hval : aggregateVerdicts vs =
      (if Verdict.UNSAFE ∈ vs then .UNSAFE
       else if Verdict.CAUTION ∈ vs then .CAUTION else .SAFE) := by
    unfold aggregateVerdicts
    by_cases hU : Verdict.UNSAFE ∈ vs <;> by_cases hC : Verdict.CAUTION ∈ vs <;>
      simp [memU, memC, hU, hC]
  refine ⟨?_, ?_, ?_, ?_, ?_, hbridge⟩
  · rw [hval]
    by_cases hU : Verdict.UNSAFE ∈ vs <;> by_cases hC : Verdict.CAUTION ∈ vs <;>
      simp [hU, hC]
  · rw [hval]
    by_cases hU : Verdict.UNSAFE ∈ vs <;> by_cases hC : Verdict.CAUTION ∈ vs <;>
      simp [hU, hC]
  · rw [hval]
    by_cases hU : Verdict.UNSAFE ∈ vs <;> by_cases hC : Verdict.CAUTION ∈ vs <;>
      simp [hU, hC]
  · rw [hval]
    by_cases hU : Verdict.UNSAFE ∈ vs <;> by_cases hC : Verdict.CAUTION ∈ vs <;>
      simp [hU, hC]
    cases vs with
    | nil => exact absurd rfl hne
    | cons a t =>
      have ha : a = Verdict.SAFE := by
        rcases a with _ | _ | _
        · rfl
        · exact absurd (List.mem_cons_self _ _) hC
        · exact absurd (List.mem_cons_self _ _) hU
      exact ha ▸ List.mem_cons_self a t
  · rw [hval]
    by_cases hU : Verdict.UNSAFE ∈ vs <;> by_cases hC : Verdict.CAUTION ∈ vs <;>
      simp [hU, hC] <;> intro v hv
    · rcases v with _ | _ | _ <;> decide
    · rcases v with _ | _ | _ <;> decide
    · rcases v with _ | _ | _
      · decide
      · decide
      · exact absurd hv hU
    · rcases v with _ | _ | _
      · decide
      · exact absurd hv hC
      · exact absurd hv hU

/-- Witness for C1 at the concrete collection `[SAFE, UNSAFE]`. -/
theorem C1_aggregator_severity_max_witness :
    aggregateVerdicts [Verdict.SAFE, Verdict.UNSAFE] = Verdict.UNSAFE ∧
    Verdict.UNSAFE ∈ [Verdict.SAFE, Verdict.UNSAFE] :=
  ⟨(C1_aggregator_severity_max [Verdict.SAFE, Verdict.UNSAFE]
      (by decide)).1.mpr (by decide), by decide⟩

/-- `jsStrictEqStr` is strict equality against the string value. -/
lemma jsStrictEqStr_iff (v : JsVal) (s : String) :
    jsStrictEqStr v s = true ↔ v = .str s := by
  cases v <;> simp [jsStrictEqStr]

/-- Reading the first item of a successful non-empty result. -/
lemma firstVerdictOf_ok_cons (item : JsVal) (rest : List JsVal) :
    firstVerdictOf (.ok (item :: rest)) = hGet item "final_status" := rfl

/-- The verdict stored on a synthesized overall card. -/
lemma hGet_overallItemJs_final_status (bc n st ra : String) :
    hGet (overallItemJs bc n st ra) "final_status" = .str st := rfl

/-- C2 counterexample: on a payload whose `overall_status` is present but not
a valid Verdict (`"BANANA"`) and whose single hit is UNSAFE, the synthesized
aggregate item's verdict is `"SAFE"` — the initializer — while the aggregator
over the hit verdicts yields `"UNSAFE"`; the claim requires the aggregator's
value here. -/
theorem C2_counterexample :
    checkBarcodeNormalize "123"
      (.obj [("overall_status", .str "BANANA"),
             ("hits", .arr [.obj [("token", .str "xylitol"),
               ("name", .str "Xylitol"), ("status", .str "UNSAFE")]])]) =
      .ok [ .obj [("label", .str "123"), ("name", .str "Scanned product"),
              ("final_status", .str "SAFE"),
              ("rationale", .str "Overall rating based on 1 ingredient we recognized in this product."),
              ("sources", .arr []), ("isProduct", .bool true)],
            .obj [("label", .str "xylitol"), ("name", .str "Xylitol"),
              ("final_status", .str "UNSAFE"), ("rationale", .undefined),
              ("sources", .undefined), ("det_conf", .undefined)] ] ∧
    aggStatusOfHits [.obj [("token", .str "xylitol"), ("name", .str "Xylitol"),
      ("status", .str "UNSAFE")]] = .ok "UNSAFE" ∧
    ("SAFE" : String) ≠ "UNSAFE" :=
  ⟨rfl, rfl, by decide⟩

/-- C2 (amended): in the barcode flow, for every successful payload with a
non-empty hits array, the aggregate item's verdict is the upper-cased
`overall_status` when that field is a string whose upper-casing is a valid
Verdict; the `"SAFE"` initializer when it is a string that does not validate
(there is no aggregator fallback in that case); and the aggregator's
maximum-severity result over the hit statuses only when the field is absent
or not a string. -/
theorem C2_overall_status_policy (bc : String) (fs : List (String × JsVal))
    (hs : List JsVal)
    (he1 : jsStrictEqStr (hGet (.obj fs) "error") "barcode_not_found" = false)
    (he2 : jsStrictEqStr (hGet (.obj fs) "error") "ingredients_missing" = false)
    (hh : jsGet (JsVal.obj fs) "hits" = some (.arr hs))
    (hne : hs ≠ [])
    (hn : ∀ h ∈ hs, h.isNullish = false) :
    (∀ s, hGet (.obj fs) "overall_status" = .str s →
      firstVerdictOf (checkBarcodeNormalize bc (.obj fs)) =
        .str (if jsToUpper s == "SAFE" || jsToUpper s == "CAUTION" ||
            jsToUpper s == "UNSAFE" then jsToUpper s else "SAFE")) ∧
    ((∀ s : String, hGet (.obj fs) "overall_status" ≠ .str s) →
      firstVerdictOf (checkBarcodeNormalize bc (.obj fs)) =
        .str (aggStatusV hs) ∧
      aggStatusOfHits hs = .ok (aggStatusV hs)) := by
  rw [checkBarcode_success bc fs hs he1 he2 hh hne hn]
  constructor
  · intro s hov
    rw [firstVerdictOf_ok_cons, hGet_overallItemJs_final_status]
    unfold overallStatusV
    rw [hov]
  · intro hov
    refine ⟨?_, aggStatusOfHits_eq hs hn⟩
    rw [firstVerdictOf_ok_cons, hGet_overallItemJs_final_status]
    unfold overallStatusV
    cases hv : hGet (.obj fs) "overall_status" with
    | str s => exact absurd hv (hov s)
    | undefined => rfl
    | null => rfl
    | bool b => rfl
    | num n => rfl
    | arr xs => rfl
    | obj gs => rfl

/-- Witness for C2's amended theorem: with `overall_status` absent and one
UNSAFE hit the aggregate card's verdict is the aggregated "UNSAFE". -/
theorem C2_overall_status_policy_witness :
    firstVerdictOf (checkBarcodeNormalize "1"
      (.obj [("hits", .arr [.obj [("status", .str "UNSAFE")]])])) =
      .str "UNSAFE" :=
  ((C2_overall_status_policy "1" [("hits", .arr [.obj [("status", .str "UNSAFE")]])]
      [.obj [("status", .str "UNSAFE")]] rfl rfl rfl (by simp)
      (by simp [JsVal.isNullish])).2 (fun s h => nomatch h)).1

/-- The barcode entry operation reduces to its normalizer when the request
completes in time with a success status and a parseable body. -/
lemma checkBarcodeAsync_completed (bc : String) (dur : Nat) (r : HttpResp)
    (j : JsVal) (hdur : dur < DEFAULT_TIMEOUT_MS) (hok : r.ok = true)
    (hjson : r.json = some j) :
    checkBarcodeAsync bc dur (.completed r) = checkBarcodeNormalize bc j := by
  simp [checkBarcodeAsync, withAbortController, hdur, hok, hjson]

/-- C3: every successful barcode lookup with N >= 1 hits returns exactly N+1
items: first the aggregate card — `isProduct` true, label the raw barcode
string, name the trimmed `display_name` or the `"Scanned product"` placeholder
when that field is absent or blank — followed by one item per hit in the
backend's order. -/
theorem C3_barcode_result_layout (bc : String) (dur : Nat) (r : HttpResp)
    (fs : List (String × JsVal)) (hs : List JsVal)
    (hdur : dur < DEFAULT_TIMEOUT_MS) (hok : r.ok = true)
    (hjson : r.json = some (.obj fs))
    (he1 : jsStrictEqStr (hGet (.obj fs) "error") "barcode_not_found" = false)
    (he2 : jsStrictEqStr (hGet (.obj fs) "error") "ingredients_missing" = false)
    (hh : jsGet (JsVal.obj fs) "hits" = some (.arr hs))
    (hne : hs ≠ [])
    (hn : ∀ h ∈ hs, h.isNullish = false) :
    checkBarcodeAsync bc dur (.completed r) =
      .ok (barcodeOverallCard bc (.obj fs) hs :: hs.map hitItemV) ∧
    (barcodeOverallCard bc (.obj fs) hs :: hs.map hitItemV).length =
      hs.length + 1 ∧
    hGet (barcodeOverallCard bc (.obj fs) hs) "isProduct" = .bool true ∧
    hGet (barcodeOverallCard bc (.obj fs) hs) "label" = .str bc ∧
    hGet (barcodeOverallCard bc (.obj fs) hs) "name" =
      .str (displayNameOf (.obj fs)) ∧
    (∀ s, hGet (.obj fs) "display_name" = .str s →
      displayNameOf (.obj fs) =
        (if (jsTrim s).length != 0 then jsTrim s else "Scanned product")) ∧
    ((∀ s : String, hGet (.obj fs) "display_name" ≠ .str s) →
      displayNameOf (.obj fs) = "Scanned product") := by
  refine ⟨?_, by simp, rfl, rfl, rfl, ?_, ?_⟩
  · rw [checkBarcodeAsync_completed bc dur r _ hdur hok hjson,
      checkBarcode_success bc fs hs he1 he2 hh hne hn]
    rfl
  · intro s hdn
    unfold displayNameOf
    rw [hdn]
  · intro hdn
    unfold displayNameOf
    cases hv : hGet (.obj fs) "display_name" with
    | str s => exact absurd hv (hdn s)
    | undefined => rfl
    | null => rfl
    | bool b => rfl
    | num n => rfl
    | arr xs => rfl
    | obj gs => rfl

/-- Witness for C3 at the spec's Gum example: one UNSAFE hit, `display_name`
present, no `overall_status`; the result is the aggregate card then the
ingredient card. -/
theorem C3_barcode_result_layout_witness :
    checkBarcodeAsync "4011" 0 (.completed ⟨true, 200, "", "OK",
      some (.obj [("display_name", .str "Gum"),
        ("hits", .arr [.obj [("token", .str "xylitol"),
          ("name", .str "Xylitol"), ("status", .str "UNSAFE")]])])⟩) =
      .ok [ .obj [("label", .str "4011"), ("name", .str "Gum"),
              ("final_status", .str "UNSAFE"),
              ("rationale", .str "Overall rating based on 1 ingredient we recognized in this product."),
              ("sources", .arr []), ("isProduct", .bool true)],
            .obj [("label", .str "xylitol"), ("name", .str "Xylitol"),
              ("final_status", .str "UNSAFE"), ("rationale", .undefined),
              ("sources", .undefined), ("det_conf", .undefined)] ] :=
  ((C3_barcode_result_layout "4011" 0 ⟨true, 200, "", "OK",
      some (.obj [("display_name", .str "Gum"),
        ("hits", .arr [.obj [("token", .str "xylitol"),
          ("name", .str "Xylitol"), ("status", .str "UNSAFE")]])])⟩
      [("display_name", .str "Gum"),
        ("hits", .arr [.obj [("token", .str "xylitol"),
          ("name", .str "Xylitol"), ("status", .str "UNSAFE")]])]
      [.obj [("token", .str "xylitol"), ("name", .str "Xylitol"),
        ("status", .str "UNSAFE")]]
      (by decide) rfl rfl rfl rfl rfl (by simp)
      (by simp [JsVal.isNullish])).1).trans rfl

/-- Strict-equality test is false exactly when the value differs. -/
lemma jsStrictEqStr_eq_false {v : JsVal} {s : String} (h : v ≠ .str s) :
    jsStrictEqStr v s = false := by
  cases hb : jsStrictEqStr v s
  · rfl
  · exact absurd ((jsStrictEqStr_iff _ _).mp hb) h

/-- On a non-null payload the barcode normalizer unfolds to its branch
structure over the `error` field value. -/
lemma checkBarcodeNormalize_eq (bc : String) (json : JsVal)
    (hnn : json.isNullish = false) :
    checkBarcodeNormalize bc json =
      (if jsStrictEqStr (hGet json "error") "barcode_not_found" then
        .error (.notFound (msgOrDefault json notFoundDefault))
      else if jsStrictEqStr (hGet json "error") "ingredients_missing" then
        .error (.incompleteData (msgOrDefault json ingredientsMissingDefault))
      else if !jsTruthy json || jsTypeof json != "object" then
        .error (.shapeMismatch barcodeShapeMsg)
      else
        match jsGet json "hits" with
        | some (.arr hits) =>
          if hits.length == 0 then .error (.incompleteData noMatchDefault)
          else
            match overallStatusOf json hits with
            | .error e => .error e
            | .ok overallStatus =>
              match mapExc hitToItem hits with
              | .error e => .error e
              | .ok items =>
                .ok (overallItemJs bc (displayNameOf json) overallStatus
                  (productRationale json hits.length) :: items)
        | _ => .error (.shapeMismatch barcodeShapeMsg)) := by
  unfold checkBarcodeNormalize
  rw [@jsGet_eq_some json hnn "error"]

/-- A payload on which some field holds an array value must be a JS object. -/
lemma json_obj_of_field_arr {json : JsVal} {f : String} {hs : List JsVal}
    (h : jsGet json f = some (.arr hs)) : ∃ fs, json = .obj fs := by
  cases json with
  | obj fs => exact ⟨fs, rfl⟩
  | null => exact absurd h (by simp [jsGet])
  | undefined => exact absurd h (by simp [jsGet])
  | bool b => exact absurd h (by simp [jsGet])
  | num n => exact absurd h (by simp [jsGet])
  | str s => exact absurd h (by simp [jsGet])
  | arr xs => exact absurd h (by simp [jsGet])

/-- C4 counterexample: a `null` payload (the body `null` is valid JSON, so
`res.json()` resolves to it) has no `hits` field, yet the barcode flow fails
with a TypeError from the `json.error` read at line 162 — which precedes the
null check of line 175 — and not with the ShapeMismatch condition the claim
assigns to payloads lacking an array-valued `hits` field. -/
theorem C4_counterexample :
    checkBarcodeNormalize "b" JsVal.null = .error .typeErrorCrash ∧
    Failure.typeErrorCrash ≠ .shapeMismatch barcodeShapeMsg :=
  ⟨rfl, by decide⟩

/-- C4 (amended): for every non-null payload, the barcode normalizer's
outcomes, checked in order, are exactly: `error = "barcode_not_found"` fails
as NotFound carrying the backend message or the default; then
`error = "ingredients_missing"` fails as IncompleteData carrying the backend
message or the default; then a `hits` field that is absent or not an array
fails as ShapeMismatch; then an empty `hits` array fails as IncompleteData;
every other payload whose hit records are non-nullish succeeds. A null
payload instead crashes with a TypeError before any of these checks. -/
theorem C4_barcode_failure_order (bc : String) (json : JsVal)
    (hnn : json.isNullish = false) :
    (hGet json "error" = .str "barcode_not_found" →
      checkBarcodeNormalize bc json =
        .error (.notFound (msgOrDefault json notFoundDefault))) ∧
    (hGet json "error" ≠ .str "barcode_not_found" →
     hGet json "error" = .str "ingredients_missing" →
      checkBarcodeNormalize bc json =
        .error (.incompleteData (msgOrDefault json ingredientsMissingDefault))) ∧
    (hGet json "error" ≠ .str "barcode_not_found" →
     hGet json "error" ≠ .str "ingredients_missing" →
     (∀ hs, jsGet json "hits" ≠ some (.arr hs)) →
      checkBarcodeNormalize bc json = .error (.shapeMismatch barcodeShapeMsg)) ∧
    (hGet json "error" ≠ .str "barcode_not_found" →
     hGet json "error" ≠ .str "ingredients_missing" →
     jsGet json "hits" = some (.arr []) →
      checkBarcodeNormalize bc json = .error (.incompleteData noMatchDefault)) ∧
    (∀ hs, hGet json "error" ≠ .str "barcode_not_found" →
     hGet json "error" ≠ .str "ingredients_missing" →
     jsGet json "hits" = some (.arr hs) → hs ≠ [] →
     (∀ h ∈ hs, h.isNullish = false) →
      checkBarcodeNormalize bc json =
        .ok (barcodeOverallCard bc json hs :: hs.map hitItemV)) := by
  refine ⟨?_, ?_, ?_, ?_, ?_⟩
  · intro h1
    rw [checkBarcodeNormalize_eq bc json hnn,
      (jsStrictEqStr_iff _ _).mpr h1]
    rfl
  · intro h1 h2
    rw [checkBarcodeNormalize_eq bc json hnn, jsStrictEqStr_eq_false h1,
      (jsStrictEqStr_iff _ _).mpr h2]
    rfl
  · intro h1 h2 h3
    rw [checkBarcodeNormalize_eq bc json hnn, jsStrictEqStr_eq_false h1,
      jsStrictEqStr_eq_false h2]
    cases hshape : (!jsTruthy json || jsTypeof json != "object") with
    | true => rfl
    | false =>
      simp only [Bool.false_eq_true, if_false]
  · intro h1 h2 hv
    obtain ⟨fs, rfl⟩ := json_obj_of_field_arr hv
    rw [checkBarcodeNormalize_eq bc _ hnn, jsStrictEqStr_eq_false h1,
      jsStrictEqStr_eq_false h2, hv]
    rfl
  · intro hs h1 h2 hv hne hn
    obtain ⟨fs, rfl⟩ := json_obj_of_field_arr hv
    exact checkBarcode_success bc fs hs (jsStrictEqStr_eq_false h1)
      (jsStrictEqStr_eq_false h2) hv hne hn

/-- Witness for C4 at a `barcode_not_found` payload with no backend message:
the NotFound condition carries the default message. -/
theorem C4_barcode_failure_order_witness :
    checkBarcodeNormalize "b" (.obj [("error", .str "barcode_not_found")]) =
      .error (.notFound notFoundDefault) :=
  (C4_barcode_failure_order "b"
    (.obj [("error", .str "barcode_not_found")]) rfl).1 rfl

/-- C5 counterexample: `{candidates: [null]}` is an object with an array-valued
`candidates` field — one of the claim's two accepted shapes — yet the call
fails with a TypeError (the map callback reads `c.name` on `null`) instead of
being mapped item-wise or yielding an empty array. -/
theorem C5_counterexample :
    classifyNormalize (.obj [("candidates", .arr [.null])]) =
      .error .typeErrorCrash :=
  rfl

/-- C5 (amended): the image normalizer accepts exactly two payload shapes — a
bare array, returned as the result, and an object with an array-valued
`candidates` field, mapped item-wise provided every candidate record is
non-nullish (a null candidate makes the whole call fail with a
TypeError-derived error); every other JSON payload, including `{}` and an
unparseable body, yields an empty array rather than failing. -/
theorem C5_image_payload_shapes (json : JsVal) :
    (∀ xs, json = .arr xs → classifyNormalize json = .ok xs) ∧
    (∀ cs, jsGet json "candidates" = some (.arr cs) →
      (∀ c ∈ cs, c.isNullish = false) →
      classifyNormalize json = .ok (cs.map candidateItemV)) ∧
    ((∀ xs, json ≠ .arr xs) →
     (∀ cs, ¬(jsTruthy json = true ∧ jsGet json "candidates" = some (.arr cs))) →
      classifyNormalize json = .ok []) ∧
    (∀ dur r, dur < CV_TIMEOUT_MS → r.ok = true → r.json = none →
      classifyImageAsync dur (.completed r) = .ok []) := by
  refine ⟨?_, ?_, ?_, ?_⟩
  · intro xs hx
    subst hx
    rfl
  · intro cs hc hn
    obtain ⟨fs, rfl⟩ := json_obj_of_field_arr hc
    exact classifyNormalize_candidates_ok fs cs hc hn
  · intro h1 h2
    cases json with
    | arr xs => exact absurd rfl (h1 xs)
    | null => rfl
    | undefined => rfl
    | bool b => cases b <;> rfl
    | num n =>
      unfold classifyNormalize
      cases hb : jsTruthy (JsVal.num n) <;> simp [hb, jsGet]
    | str s =>
      unfold classifyNormalize
      cases hb : jsTruthy (JsVal.str s) <;> simp [hb, jsGet]
    | obj fs =>
      unfold classifyNormalize
      cases hv : jsGet (JsVal.obj fs) "candidates" with
      | none => simp [hv, jsTruthy]
      | some v =>
        cases v with
        | arr cs => exact absurd ⟨rfl, hv⟩ (h2 cs)
        | undefined => simp [hv, jsTruthy]
        | null => simp [hv, jsTruthy]
        | bool b => simp [hv, jsTruthy]
        | num n => simp [hv, jsTruthy]
        | str s => simp [hv, jsTruthy]
        | obj gs => simp [hv, jsTruthy]
  · intro dur r hdur hok hjson
    simp [classifyImageAsync, withAbortController, hdur, hok, hjson,
      classifyNormalize, jsTruthy]

/-- Witness for C5 at the unrecognized shape `{}`: empty array, no error. -/
theorem C5_image_payload_shapes_witness :
    classifyNormalize (.obj []) = .ok [] :=
  (C5_image_payload_shapes (.obj [])).2.2.1 (fun xs h => nomatch h)
    (fun cs h => by simp [jsGet] at h)

/-- C6 counterexample: the candidate `{name:"Grapes", status:"WEIRD"}` carries
a status outside the Verdict enumeration, yet it is not dropped: the batch
yields one item and the unrecognized status string is coerced into its
`final_status` verbatim. -/
theorem C6_counterexample :
    classifyNormalize
      (.obj [("candidates", .arr [.obj [("name", .str "Grapes"),
        ("status", .str "WEIRD")]])]) =
      .ok [ .obj [("name", .str "Grapes"), ("label", .str "Grapes"),
              ("final_status", .str "WEIRD"), ("rationale", .undefined),
              ("det_conf", .undefined), ("sources", .arr [])] ] ∧
    isVerdictStr (.str "WEIRD") = false :=
  ⟨rfl, rfl⟩

/-- C6 (amended): the image normalizer never drops a candidate record — on an
object payload with an array of non-nullish candidates every record is
normalized and returned, count and order preserved, and each record's status
value (absent or unrecognized included) is passed through to the output item
verbatim as `status ?? default_status`, never validated against the Verdict
enumeration. -/
theorem C6_no_candidate_dropped (fs : List (String × JsVal)) (cs : List JsVal)
    (hc : jsGet (JsVal.obj fs) "candidates" = some (.arr cs))
    (hn : ∀ c ∈ cs, c.isNullish = false) :
    classifyNormalize (.obj fs) = .ok (cs.map candidateItemV) ∧
    (cs.map candidateItemV).length = cs.length ∧
    (∀ c ∈ cs, hGet (candidateItemV c) "final_status" =
      nullishElse (hGet c "status") (hGet c "default_status")) := by
  exact ⟨classifyNormalize_candidates_ok fs cs hc hn, by simp, fun c _ => rfl⟩

/-- Witness for C6 at a single well-formed candidate. -/
theorem C6_no_candidate_dropped_witness :
    classifyNormalize (.obj [("candidates", .arr [.obj [("name", .str "Apple"),
      ("status", .str "SAFE")]])]) =
      .ok [candidateItemV (.obj [("name", .str "Apple"),
        ("status", .str "SAFE")])] :=
  (C6_no_candidate_dropped
    [("candidates", .arr [.obj [("name", .str "Apple"), ("status", .str "SAFE")]])]
    [.obj [("name", .str "Apple"), ("status", .str "SAFE")]]
    rfl (by simp [JsVal.isNullish])).1

/-- C7: resolve-by-text fails with a ShapeMismatch error for every payload
that is not an object with an array-valued `hits` field; for every well-formed
payload with N (non-nullish) hits the text flow yields exactly N normalized
items in input order, each with the aggregate flag unset, mapped one-to-one
from its hit — token as label, canonical name as name, the hit's status as the
verdict. -/
theorem C7_text_flow (json : JsVal) :
    ((∀ fs, json ≠ .obj fs) →
      resolveTextNormalize json =
        .error (.shapeMismatch "Unexpected response shape from server")) ∧
    (∀ fs, json = .obj fs → (∀ hs, jsGet json "hits" ≠ some (.arr hs)) →
      resolveTextNormalize json =
        .error (.shapeMismatch "Unexpected response shape from server")) ∧
    (∀ hs, jsGet json "hits" = some (.arr hs) →
      (∀ h ∈ hs, h.isNullish = false) →
      resolveTextNormalize json = .ok json ∧
      runTextCheckItems hs = .ok (hs.map textItemV) ∧
      (hs.map textItemV).length = hs.length ∧
      (∀ h ∈ hs, hGet (textItemV h) "label" = hGet h "token" ∧
        hGet (textItemV h) "name" = hGet h "name" ∧
        hGet (textItemV h) "final_status" = hGet h "status" ∧
        hGet (textItemV h) "isProduct" = .undefined)) := by
  refine ⟨?_, ?_, ?_⟩
  · intro h1
    cases json with
    | obj fs => exact absurd rfl (h1 fs)
    | null => rfl
    | undefined => rfl
    | bool b => cases b <;> rfl
    | arr xs => rfl
    | num n =>
      unfold resolveTextNormalize
      cases hb : jsTruthy (JsVal.num n) <;> simp [hb, jsTypeof]
    | str s =>
      unfold resolveTextNormalize
      cases hb : jsTruthy (JsVal.str s) <;> simp [hb, jsTypeof]
  · rintro fs rfl hno
    unfold resolveTextNormalize
    cases hv : jsGet (JsVal.obj fs) "hits" with
    | none => simp [hv, jsTruthy, jsTypeof]
    | some v =>
      cases v with
      | arr hs => exact absurd hv (hno hs)
      | undefined => simp [hv, jsTruthy, jsTypeof]
      | null => simp [hv, jsTruthy, jsTypeof]
      | bool b => simp [hv, jsTruthy, jsTypeof]
      | num n => simp [hv, jsTruthy, jsTypeof]
      | str s => simp [hv, jsTruthy, jsTypeof]
      | obj gs => simp [hv, jsTruthy, jsTypeof]
  · intro hs hv hn
    obtain ⟨fs, rfl⟩ := json_obj_of_field_arr hv
    refine ⟨?_, ?_, by simp, fun h _ => ⟨rfl, rfl, rfl, rfl⟩⟩
    · unfold resolveTextNormalize
      simp [hv, jsTruthy, jsTypeof]
    · exact mapExc_ok _ _ hs (fun h hh => by simp [textHitToItem, hn h hh])

/-- Witness for C7 at a one-hit payload. -/
theorem C7_text_flow_witness :
    runTextCheckItems [.obj [("token", .str "salt"), ("name", .str "Salt"),
      ("status", .str "SAFE")]] =
      .ok [textItemV (.obj [("token", .str "salt"), ("name", .str "Salt"),
        ("status", .str "SAFE")])] :=
  ((C7_text_flow (.obj [("hits", .arr [.obj [("token", .str "salt"),
      ("name", .str "Salt"), ("status", .str "SAFE")]])])).2.2
    [.obj [("token", .str "salt"), ("name", .str "Salt"),
      ("status", .str "SAFE")]]
    rfl (by simp [JsVal.isNullish])).2.1

/-- A well-formed hit record is in particular non-nullish. -/
lemma wf_hit_not_nullish {h : JsVal} (hwf : wellFormedHit h = true) :
    h.isNullish = false := by
  unfold wellFormedHit at hwf
  simp only [Bool.and_eq_true] at hwf
  simpa using hwf.1.1

/-- A well-formed candidate record is in particular non-nullish. -/
lemma wf_cand_not_nullish {c : JsVal} (hwf : wellFormedCandidate c = true) :
    c.isNullish = false := by
  unfold wellFormedCandidate at hwf
  simp only [Bool.and_eq_true] at hwf
  simpa using hwf.1.1

/-- The barcode display name is never the empty string: either a non-blank
trimmed backend name or the placeholder. -/
lemma displayNameOf_ne (json : JsVal) : displayNameOf json ≠ "" := by
  unfold displayNameOf
  cases hGet json "display_name" with
  | str s =>
    by_cases hlen : ((jsTrim s).length != 0) = true
    · simp only [hlen, if_true]
      intro hEq
      rw [hEq] at hlen
      simp at hlen
    · simp only [hlen]
      simp
  | undefined => simp
  | null => simp
  | bool b => simp
  | num n => simp
  | arr xs => simp
  | obj gs => simp

/-- The overall status the barcode flow computes is always a member of the
Verdict enumeration. -/
lemma overallStatusV_valid (json : JsVal) (hs : List JsVal) :
    isVerdictStr (.str (overallStatusV json hs)) = true := by
  unfold overallStatusV
  cases hGet json "overall_status" with
  | str s =>
    by_cases hb : (jsToUpper s == "SAFE" || jsToUpper s == "CAUTION" ||
        jsToUpper s == "UNSAFE") = true
    · simp only [hb, if_true, isVerdictStr]
    · simp only [hb]
      simp [isVerdictStr]
  | undefined =>
    unfold aggStatusV
    cases h1 : someStatusV hs "UNSAFE" <;> cases h2 : someStatusV hs "CAUTION" <;>
      simp [isVerdictStr]
  | null =>
    unfold aggStatusV
    cases h1 : someStatusV hs "UNSAFE" <;> cases h2 : someStatusV hs "CAUTION" <;>
      simp [isVerdictStr]
  | bool b =>
    unfold aggStatusV
    cases h1 : someStatusV hs "UNSAFE" <;> cases h2 : someStatusV hs "CAUTION" <;>
      simp [isVerdictStr]
  | num n =>
    unfold aggStatusV
    cases h1 : someStatusV hs "UNSAFE" <;> cases h2 : someStatusV hs "CAUTION" <;>
      simp [isVerdictStr]
  | arr xs =>
    unfold aggStatusV
    cases h1 : someStatusV hs "UNSAFE" <;> cases h2 : someStatusV hs "CAUTION" <;>
      simp [isVerdictStr]
  | obj gs =>
    unfold aggStatusV
    cases h1 : someStatusV hs "UNSAFE" <;> cases h2 : someStatusV hs "CAUTION" <;>
      simp [isVerdictStr]

/-- The synthesized overall card satisfies the invariant whenever its name is
non-empty and its status validates. -/
lemma overallItemJs_invariant (bc n st ra : String) (hn : n ≠ "")
    (hst : isVerdictStr (.str st) = true) :
    satisfiesInvariant (overallItemJs bc n st ra) = true := by
  unfold satisfiesInvariant
  have e1 : hGet (overallItemJs bc n st ra) "label" = .str bc := rfl
  have e2 : hGet (overallItemJs bc n st ra) "name" = .str n := rfl
  rw [e1, e2, hGet_overallItemJs_final_status, hst]
  simp [isNonemptyStr, hn]

/-- An ingredient card mapped from a well-formed hit satisfies the invariant. -/
lemma hitItemV_invariant {h : JsVal} (hwf : wellFormedHit h = true) :
    satisfiesInvariant (hitItemV h) = true := by
  have e1 : hGet (hitItemV h) "label" = hGet h "token" := rfl
  have e2 : hGet (hitItemV h) "name" = hGet h "name" := rfl
  have e3 : hGet (hitItemV h) "final_status" = hGet h "status" := rfl
  unfold satisfiesInvariant
  rw [e1, e2, e3]
  unfold wellFormedHit at hwf
  simp only [Bool.and_eq_true, Bool.or_eq_true] at hwf ⊢
  exact ⟨hwf.2, hwf.1.2⟩

/-- A text-flow item mapped from a well-formed hit satisfies the invariant. -/
lemma textItemV_invariant {h : JsVal} (hwf : wellFormedHit h = true) :
    satisfiesInvariant (textItemV h) = true := by
  have e1 : hGet (textItemV h) "label" = hGet h "token" := rfl
  have e2 : hGet (textItemV h) "name" = hGet h "name" := rfl
  have e3 : hGet (textItemV h) "final_status" = hGet h "status" := rfl
  unfold satisfiesInvariant
  rw [e1, e2, e3]
  unfold wellFormedHit at hwf
  simp only [Bool.and_eq_true, Bool.or_eq_true] at hwf ⊢
  exact ⟨hwf.2, hwf.1.2⟩

/-- An image item mapped from a well-formed candidate satisfies the
invariant. -/
lemma candidateItemV_invariant {c : JsVal} (hwf : wellFormedCandidate c = true) :
    satisfiesInvariant (candidateItemV c) = true := by
  have e1 : hGet (candidateItemV c) "label" =
      nullishElse (hGet c "model_label")
        (nullishElse (hGet c "label") (hGet c "name")) := rfl
  have e2 : hGet (candidateItemV c) "name" =
      nullishElse (hGet c "name")
        (nullishElse (hGet c "canonical_name") (hGet c "label")) := rfl
  have e3 : hGet (candidateItemV c) "final_status" =
      nullishElse (hGet c "status") (hGet c "default_status") := rfl
  unfold satisfiesInvariant
  rw [e1, e2, e3]
  unfold wellFormedCandidate at hwf
  simp only [Bool.and_eq_true, Bool.or_eq_true] at hwf ⊢
  exact ⟨hwf.2.elim Or.inr Or.inl, hwf.1.2⟩

/-- C8 counterexample: the image operation's bare-array shape is returned
without validation, so the payload `[{}]` produces an item with no label, no
name and no verdict at all — the data-model invariant does not hold of every
returned item. -/
theorem C8_counterexample :
    classifyImageAsync 0 (.completed ⟨true, 200, "", "OK",
      some (.arr [.obj []])⟩) = .ok [.obj []] ∧
    satisfiesInvariant (.obj []) = false :=
  ⟨rfl, rfl⟩

/-- C8 (amended): the invariant — a non-empty label or name, and a verdict in
the enumeration — is unconditionally guaranteed only for the barcode flow's
synthesized aggregate card; items mapped from backend hit or candidate records
satisfy it exactly when the backend record itself supplies the required fields
(a non-empty token or name and a valid status), which none of the three
normalizers validates. -/
theorem C8_invariant_only_for_wellformed_records :
    (∀ (bc : String) (fs : List (String × JsVal)) (hs : List JsVal),
      jsStrictEqStr (hGet (.obj fs) "error") "barcode_not_found" = false →
      jsStrictEqStr (hGet (.obj fs) "error") "ingredients_missing" = false →
      jsGet (JsVal.obj fs) "hits" = some (.arr hs) → hs ≠ [] →
      (∀ h ∈ hs, wellFormedHit h = true) →
      checkBarcodeNormalize bc (.obj fs) =
        .ok (barcodeOverallCard bc (.obj fs) hs :: hs.map hitItemV) ∧
      ∀ item ∈ (barcodeOverallCard bc (.obj fs) hs :: hs.map hitItemV),
        satisfiesInvariant item = true) ∧
    (∀ xs : List JsVal, (∀ x ∈ xs, satisfiesInvariant x = true) →
      classifyNormalize (.arr xs) = .ok xs ∧
      ∀ item ∈ xs, satisfiesInvariant item = true) ∧
    (∀ (fs : List (String × JsVal)) (cs : List JsVal),
      jsGet (JsVal.obj fs) "candidates" = some (.arr cs) →
      (∀ c ∈ cs, wellFormedCandidate c = true) →
      classifyNormalize (.obj fs) = .ok (cs.map candidateItemV) ∧
      ∀ item ∈ cs.map candidateItemV, satisfiesInvariant item = true) ∧
    (∀ hs : List JsVal, (∀ h ∈ hs, wellFormedHit h = true) →
      runTextCheckItems hs = .ok (hs.map textItemV) ∧
      ∀ item ∈ hs.map textItemV, satisfiesInvariant item = true) := by
  refine ⟨?_, ?_, ?_, ?_⟩
  · intro bc fs hs he1 he2 hh hne hwf
    have hn : ∀ h ∈ hs, h.isNullish = false :=
      fun h hmem => wf_hit_not_nullish (hwf h hmem)
    refine ⟨checkBarcode_success bc fs hs he1 he2 hh hne hn, ?_⟩
    intro item hitem
    rcases List.mem_cons.mp hitem with rfl | hmem
    · exact overallItemJs_invariant bc _ _ _ (displayNameOf_ne _)
        (overallStatusV_valid _ _)
    · obtain ⟨h, hmem2, rfl⟩ := List.mem_map.mp hmem
      exact hitItemV_invariant (hwf h hmem2)
  · intro xs hwf
    exact ⟨rfl, hwf⟩
  · intro fs cs hc hwf
    have hn : ∀ c ∈ cs, c.isNullish = false :=
      fun c hmem => wf_cand_not_nullish (hwf c hmem)
    refine ⟨classifyNormalize_candidates_ok fs cs hc hn, ?_⟩
    intro item hitem
    obtain ⟨c, hmem2, rfl⟩ := List.mem_map.mp hitem
    exact candidateItemV_invariant (hwf c hmem2)
  · intro hs hwf
    have hn : ∀ h ∈ hs, h.isNullish = false :=
      fun h hmem => wf_hit_not_nullish (hwf h hmem)
    refine ⟨mapExc_ok _ _ hs (fun h hmem => by
        simp [textHitToItem, hn h hmem]), ?_⟩
    intro item hitem
    obtain ⟨h, hmem2, rfl⟩ := List.mem_map.mp hitem
    exact textItemV_invariant (hwf h hmem2)

/-- Witness for C8's amended theorem: the text flow item of one well-formed
hit satisfies the invariant. -/
theorem C8_invariant_only_for_wellformed_records_witness :
    satisfiesInvariant (textItemV (.obj [("token", .str "salt"),
      ("name", .str "Salt"), ("status", .str "SAFE")])) = true :=
  (C8_invariant_only_for_wellformed_records.2.2.2
    [.obj [("token", .str "salt"), ("name", .str "Salt"),
      ("status", .str "SAFE")]]
    (by intro h hh; rw [List.mem_singleton] at hh; subst hh; rfl)).2
    (textItemV (.obj [("token", .str "salt"), ("name", .str "Salt"),
      ("status", .str "SAFE")])) (by simp)

/-- C9: when the deadline elapses before the request completes, every entry
operation fails with the Timeout condition carrying the timed-out message —
and never with a NetworkFailure, which is reserved for a transport rejection
occurring before the deadline. The two directions pin the deadline each
operation actually passes to the transport wrapper: 120000 ms for the image
operation, the 60000 ms default for the text, barcode and (non-empty) token
operations. -/
theorem C9_deadline_timeout_classification :
    CV_TIMEOUT_MS = 120000 ∧ DEFAULT_TIMEOUT_MS = 60000 ∧
    (∀ dur out, CV_TIMEOUT_MS ≤ dur →
      classifyImageAsync dur out = .error (.timeout timedOutMsg)) ∧
    (∀ dur m, dur < CV_TIMEOUT_MS →
      classifyImageAsync dur (.netFail m) = .error (.netFailure m)) ∧
    (∀ dur out, DEFAULT_TIMEOUT_MS ≤ dur →
      resolveTextAsync dur out = .error (.timeout timedOutMsg)) ∧
    (∀ dur m, dur < DEFAULT_TIMEOUT_MS →
      resolveTextAsync dur (.netFail m) = .error (.netFailure m)) ∧
    (∀ bc dur out, DEFAULT_TIMEOUT_MS ≤ dur →
      checkBarcodeAsync bc dur out = .error (.timeout timedOutMsg)) ∧
    (∀ bc dur m, dur < DEFAULT_TIMEOUT_MS →
      checkBarcodeAsync bc dur (.netFail m) = .error (.netFailure m)) ∧
    (∀ ts dur out, ts ≠ [] → DEFAULT_TIMEOUT_MS ≤ dur →
      resolveTokensAsync (some ts) dur out =
        (true, .error (.timeout timedOutMsg))) ∧
    (∀ ts dur m, ts ≠ [] → dur < DEFAULT_TIMEOUT_MS →
      resolveTokensAsync (some ts) dur (.netFail m) =
        (true, .error (.netFailure m))) ∧
    (∀ m, (Failure.timeout timedOutMsg) ≠ .netFailure m) := by
  have hlen : ∀ (ts : List String), ts ≠ [] → (ts.length == 0) = false := by
    intro ts hne
    cases ts with
    | nil => exact absurd rfl hne
    | cons a t => rfl
  refine ⟨rfl, rfl, ?_, ?_, ?_, ?_, ?_, ?_, ?_, ?_, fun m h => nomatch h⟩
  · intro dur out h
    simp [classifyImageAsync, withAbortController, Nat.not_lt.mpr h,
      classifyCatch]
  · intro dur m h
    simp [classifyImageAsync, withAbortController, h, classifyCatch]
  · intro dur out h
    simp [resolveTextAsync, withAbortController, Nat.not_lt.mpr h,
      classifyCatch]
  · intro dur m h
    simp [resolveTextAsync, withAbortController, h, classifyCatch]
  · intro bc dur out h
    simp [checkBarcodeAsync, withAbortController, Nat.not_lt.mpr h,
      classifyCatch]
  · intro bc dur m h
    simp [checkBarcodeAsync, withAbortController, h, classifyCatch]
  · intro ts dur out hne h
    simp [resolveTokensAsync, hlen ts hne, withAbortController,
      Nat.not_lt.mpr h, classifyCatch]
  · intro ts dur m hne h
    simp [resolveTokensAsync, hlen ts hne, withAbortController, h,
      classifyCatch]

/-- Witness for C9: at exactly the image deadline the result is the Timeout
condition even though the transport would have failed with a network error,
and below the default deadline a network error surfaces as NetworkFailure. -/
theorem C9_deadline_timeout_classification_witness :
    classifyImageAsync 120000 (.netFail "ECONNRESET") =
      .error (.timeout timedOutMsg) ∧
    resolveTextAsync 59999 (.netFail "ECONNRESET") =
      .error (.netFailure "ECONNRESET") :=
  ⟨C9_deadline_timeout_classification.2.2.1 120000 (.netFail "ECONNRESET")
      (by decide),
    C9_deadline_timeout_classification.2.2.2.2.2.1 59999 "ECONNRESET"
      (by decide)⟩

/-- C10: a token-resolution call with a null/undefined or empty token list
succeeds with an empty hit list for every transport behavior — the transport
wrapper is never reached — and it is reached exactly when the token list is
non-empty. -/
theorem C10_empty_tokens_no_network :
    (∀ dur out, resolveTokensAsync none dur out = (false, .ok [])) ∧
    (∀ dur out, resolveTokensAsync (some []) dur out = (false, .ok [])) ∧
    (∀ ts dur out, ts ≠ [] →
      (resolveTokensAsync (some ts) dur out).fst = true) := by
  refine ⟨fun dur out => rfl, fun dur out => rfl, ?_⟩
  intro ts dur out hne
  cases ts with
  | nil => exact absurd rfl hne
  | cons a t => rfl

/-- Witness for C10: an empty token list ignores even a deadline-length
transport episode, while a one-token list reaches the transport. -/
theorem C10_empty_tokens_no_network_witness :
    resolveTokensAsync (some []) 999999 (.netFail "down") = (false, .ok []) ∧
    (resolveTokensAsync (some ["salt"]) 0 (.netFail "down")).fst = true :=
  ⟨C10_empty_tokens_no_network.2.1 999999 (.netFail "down"),
    C10_empty_tokens_no_network.2.2 ["salt"] 0 (.netFail "down") (by simp)⟩
